import Mathlib

/-!
Verification of the clintrAI harmonization core (overlap analysis, source
preparation, outer-join merge, coalescing strategies, schema enforcement,
hash sharding) against its natural-language specification.

The Python source (polars dataframes) is shallowly embedded:
a dataframe is a column list (name, dtype) plus a list of rows, a row is an
association list from column name to cell value.  Polars library primitives
that the repository merely calls (the versioned 64-bit column hash and the
strptime date parser) are threaded through as explicit function parameters,
since their internals are not part of the repository.  Fallible code is
embedded in the Except monad; in particular the strategy dispatch of
get_strategy_config references an enum member that does not exist and so
raises on every call, which the embedding reproduces.
-/

set_option autoImplicit false

namespace ClinTrAI

/-- A polars cell value.  Only the types appearing in the canonical output
schema of schema.py are represented: Utf8, Int64, Boolean, Date, Datetime,
UInt64 and List(Utf8).  Dates and datetimes are abstracted to a numeric
instant.  A missing value is the distinguished null. -/
inductive PValue where
  | null : PValue
  | str : String → PValue
  | int : Int → PValue
  | bool : Bool → PValue
  | date : Nat → PValue
  | datetime : Nat → PValue
  | uint : Nat → PValue
  | list : List String → PValue
deriving DecidableEq

/-- A polars dtype, restricted to the dtypes of OUTPUT_SCHEMA in schema.py. -/
inductive PType where
  | utf8 : PType
  | int64 : PType
  | boolean : PType
  | date : PType
  | datetime : PType
  | uint64 : PType
  | listUtf8 : PType
deriving DecidableEq

/-- Whether a cell value inhabits a dtype; null inhabits every dtype
(every polars column is nullable). -/
def PValue.hasType : PValue → PType → Bool
  | .null, _ => true
  | .str _, .utf8 => true
  | .int _, .int64 => true
  | .bool _, .boolean => true
  | .date _, .date => true
  | .datetime _, .datetime => true
  | .uint _, .uint64 => true
  | .list _, .listUtf8 => true
  | _, _ => false

/-- A dataframe row: association list from column name to cell value. -/
abbrev Row := List (String × PValue)

/-- Reading a column of a row; a column the row does not bind reads as null
(after the outer join every column exists on every row, the absent side
being filled with nulls, which this default mirrors). -/
def rowGet : Row → String → PValue
  | [], _ => .null
  | (k, v) :: r, n => if k = n then v else rowGet r n

/-- Whether a row binds a column name. -/
def rowHas : Row → String → Bool
  | [], _ => false
  | (k, _) :: r, n => k = n || rowHas r n

/-- Replace the value of an existing column, keeping its position. -/
def rowReplace : Row → String → PValue → Row
  | [], _, _ => []
  | (k, v) :: r, n, w =>
      if k = n then (k, w) :: rowReplace r n w else (k, v) :: rowReplace r n w

/-- The with_columns update of one aliased expression: replace the column in
place when it exists, append it at the end otherwise (polars semantics). -/
def rowSet (r : Row) (n : String) (w : PValue) : Row :=
  if rowHas r n then rowReplace r n w else r ++ [(n, w)]

/-- Sequential application of a list of with_columns updates whose values
were all computed against the original frame beforehand. -/
def rowSetMany : Row → List (String × PValue) → Row
  | r, [] => r
  | r, (n, w) :: us => rowSetMany (rowSet r n w) us

/-- The last binding of a name in an update list, if any. -/
def lookupLast : List (String × PValue) → String → Option PValue
  | [], _ => none
  | (m, w) :: us, n =>
      match lookupLast us n with
      | some x => some x
      | none => if m = n then some w else none

theorem rowGet_of_rowHas_eq_false {r : Row} {n : String} (h : rowHas r n = false) :
    rowGet r n = .null := by
  induction r with
  | nil => rfl
  | cons e r ih =>
      simp only [rowHas, Bool.or_eq_false_iff, decide_eq_false_iff_not] at h
      simp only [rowGet, if_neg h.1, ih h.2]

theorem rowGet_append (r s : Row) (n : String) :
    rowGet (r ++ s) n = if rowHas r n then rowGet r n else rowGet s n := by
  induction r with
  | nil => simp [rowGet, rowHas]
  | cons e r ih =>
      obtain ⟨k, v⟩ := e
      by_cases hk : k = n
      · simp [rowGet, rowHas, hk]
      · simp [rowGet, rowHas, hk, ih]

theorem rowGet_rowReplace_self {r : Row} {n : String} {w : PValue}
    (h : rowHas r n = true) : rowGet (rowReplace r n w) n = w := by
  induction r with
  | nil => simp [rowHas] at h
  | cons e r ih =>
      by_cases hk : e.1 = n
      · simp [rowReplace, rowGet, hk]
      · simp only [rowHas, Bool.or_eq_true, decide_eq_true_eq, hk, false_or] at h
        simp [rowReplace, rowGet, hk, ih h]

theorem rowGet_rowReplace_ne {r : Row} {n m : String} {w : PValue}
    (h : m ≠ n) : rowGet (rowReplace r n w) m = rowGet r m := by
  induction r with
  | nil => rfl
  | cons e r ih =>
      obtain ⟨k, v⟩ := e
      by_cases hk : k = n
      · have hnm : k ≠ m := by rw [hk]; exact fun hh => h hh.symm
        simp [rowReplace, rowGet, hk, hnm, ih, Ne.symm h]
      · by_cases hm : k = m
        · simp [rowReplace, rowGet, hk, hm, h]
        · simp [rowReplace, rowGet, hk, hm, ih, h]

theorem rowGet_rowSet_self (r : Row) (n : String) (w : PValue) :
    rowGet (rowSet r n w) n = w := by
  unfold rowSet
  by_cases h : rowHas r n
  · simp [h, rowGet_rowReplace_self h]
  · simp only [h, if_false, Bool.false_eq_true, rowGet_append]
    simp [h, rowGet]

theorem rowGet_rowSet_ne (r : Row) (n m : String) (w : PValue) (h : m ≠ n) :
    rowGet (rowSet r n w) m = rowGet r m := by
  unfold rowSet
  by_cases hh : rowHas r n
  · simp [hh, rowGet_rowReplace_ne h]
  · simp only [hh, if_false, Bool.false_eq_true, rowGet_append]
    by_cases hm : rowHas r m
    · simp [hm]
    · simp only [Bool.not_eq_true] at hm
      simp [hm, rowGet, Ne.symm h, rowGet_of_rowHas_eq_false hm]

theorem rowGet_rowSetMany (us : List (String × PValue)) (r : Row) (n : String) :
    rowGet (rowSetMany r us) n =
      match lookupLast us n with
      | some w => w
      | none => rowGet r n := by
  induction us generalizing r with
  | nil => rfl
  | cons u us ih =>
      obtain ⟨m, w⟩ := u
      simp only [rowSetMany, lookupLast, ih]
      cases hl : lookupLast us n with
      | some x => simp
      | none =>
          by_cases hm : m = n
          · subst hm; simp [rowGet_rowSet_self]
          · simp [hm, rowGet_rowSet_ne r m n w (Ne.symm hm)]

/-! ## Strategy dispatch (models/types.py, metaflow/harmonization.py)

The module-level coalescing functions of processing/strategies.py are only
reachable through the coalesce_func entries of the strategy dict of
get_strategy_config, and that dict can never be built (see
get_strategy_config below), so they are not embedded here; claim C4 about
them additionally depends on the element order of the polars list.unique
call, which with its default maintain_order=False the library leaves
unspecified. -/

/-- The deduplication strategy enum of models/types.py. -/
inductive DeduplicationStrategy where
  | json_priority : DeduplicationStrategy
  | csv_priority : DeduplicationStrategy
  | merge_all : DeduplicationStrategy
deriving DecidableEq

/-- The DataSource enum of models/types.py, member for member.  It defines
CSV_ONLY, JSON_ONLY, JSON_PRIORITY, CSV_FALLBACK and MERGED — and no
CSV_PRIORITY member. -/
inductive DataSource where
  | csv_only : DataSource
  | json_only : DataSource
  | json_priority : DataSource
  | csv_fallback : DataSource
  | merged : DataSource
deriving DecidableEq

/-- The string value of a DataSource member. -/
def DataSource.value : DataSource → String
  | .csv_only => "csv_only"
  | .json_only => "json_only"
  | .json_priority => "json_priority"
  | .csv_fallback => "csv_fallback"
  | .merged => "merged"

/-- One entry of the strategy dict of get_strategy_config: the coalesce
function piped over the merged frame, the columns that stage adds, and
the data_source expression evaluated on a coalesced row. -/
structure StrategyConfig where
  coalesce_func : Row → Row
  coalesce_cols : List (String × PType)
  source_logic : Row → String

/-- get_strategy_config of metaflow/harmonization.py.  The strategies dict
literal is rebuilt eagerly on every call, and the source_logic expression
of its CSV_PRIORITY entry reads DataSource.CSV_PRIORITY.value — a member
the DataSource enum does not define (see DataSource above; the enum offers
CSV_FALLBACK instead).  Python raises AttributeError while evaluating the
dict literal, before the requested entry is looked up, so every call fails
with that error whatever strategy is requested and no StrategyConfig is
ever produced. -/
def get_strategy_config (_strategy : DeduplicationStrategy) :
    Except String StrategyConfig :=
  .error "AttributeError: CSV_PRIORITY"

/-! ## Canonical schema and enforcement (processing/schema.py) -/

/-- The fixed canonical output schema of schema.py, in its fixed column
order. -/
def OUTPUT_SCHEMA : List (String × PType) := [
  ("nct_id", .utf8),
  ("title", .utf8),
  ("official_title", .utf8),
  ("brief_title", .utf8),
  ("study_url", .utf8),
  ("acronym", .utf8),
  ("overall_status", .utf8),
  ("study_type", .utf8),
  ("study_phase", .utf8),
  ("has_results", .boolean),
  ("brief_summary", .utf8),
  ("detailed_description", .utf8),
  ("conditions", .listUtf8),
  ("interventions", .listUtf8),
  ("condition_meshes", .listUtf8),
  ("sex", .utf8),
  ("minimum_age", .utf8),
  ("maximum_age", .utf8),
  ("healthy_volunteers", .boolean),
  ("enrollment", .int64),
  ("start_date", .date),
  ("primary_completion_date", .date),
  ("completion_date", .date),
  ("first_posted", .date),
  ("last_update_posted", .date),
  ("lead_sponsor", .utf8),
  ("collaborators", .listUtf8),
  ("document_urls", .listUtf8),
  ("document_files", .listUtf8),
  ("locations", .listUtf8),
  ("data_source", .utf8),
  ("shard_hash", .uint64),
  ("processing_timestamp", .datetime)]

/-- One decimal digit of a character, if any (code points 48 to 57). -/
def charDigit? (c : Char) : Option Nat :=
  if 48 ≤ c.toNat ∧ c.toNat ≤ 57 then some (c.toNat - 48) else none

/-- Accumulate a decimal number over a character list; any non-digit makes
the whole parse fail. -/
def parseNatAux : List Char → Nat → Option Nat
  | [], acc => some acc
  | c :: cs, acc =>
      match charDigit? c with
      | some d => parseNatAux cs (acc * 10 + d)
      | none => none

/-- The integer parse of a decimal string (optional leading minus, at
least one digit, no other characters), the model of the numeric
string-to-Int64 conversion of the dataframe library. -/
def parseIntString (s : String) : Option Int :=
  match s.data with
  | [] => none
  | '-' :: cs =>
      match cs with
      | [] => none
      | _ => (parseNatAux cs 0).map (fun n => -(n : Int))
  | cs => (parseNatAux cs 0).map (fun n => (n : Int))

/-- The polars cast with its default strict=True semantics, as invoked by
the expression pl.col(name).cast(dtype) in the schema enforcer: null casts
to null, a value already of the dtype is unchanged, a representable
conversion succeeds, and an unrepresentable value raises (returns an
error), it does not become null. -/
def castStrict (t : PType) (v : PValue) : Except String PValue :=
  if v = .null then .ok .null
  else if v.hasType t then .ok v
  else
    match t, v with
    | .utf8, .int i => .ok (.str (toString i))
    | .utf8, .bool b => .ok (.str (if b then "true" else "false"))
    | .int64, .str s =>
        match parseIntString s with
        | some i => .ok (.int i)
        | none => .error "conversion from str to int64 failed"
    | .int64, .bool b => .ok (.int (if b then 1 else 0))
    | .int64, .uint u => .ok (.int u)
    | .uint64, .int i =>
        if 0 ≤ i then .ok (.uint i.toNat)
        else .error "conversion from int64 to uint64 failed"
    | .boolean, .str s =>
        if s = "true" then .ok (.bool true)
        else if s = "false" then .ok (.bool false)
        else .error "conversion from str to bool failed"
    | _, _ => .error "cannot cast"

/-- Error-propagating map over a list, the model of building the output
column list where any failing cast raises out of the whole operation. -/
def mapE {α β : Type} (f : α → Except String β) : List α → Except String (List β)
  | [] => .ok []
  | x :: xs =>
      match f x with
      | .error e => .error e
      | .ok y =>
          match mapE f xs with
          | .error e => .error e
          | .ok ys => .ok (y :: ys)

/-- One select expression of enforce_output_schema for a canonical field:
when the column is present in the input frame it is cast (strictly) to the
declared type, when absent a typed null literal is produced. -/
def enforceField (names : List String) (r : Row) (nt : String × PType) :
    Except String (String × PValue) :=
  if nt.1 ∈ names then (castStrict nt.2 (rowGet r nt.1)).map (fun v => (nt.1, v))
  else .ok (nt.1, .null)

/-- enforce_output_schema applied to one row: the output row binds exactly
the canonical fields, in the canonical order. -/
def enforceRow (names : List String) (r : Row) : Except String Row :=
  mapE (enforceField names r) OUTPUT_SCHEMA

/-- A dataframe: a list of (column name, dtype) pairs plus a list of rows. -/
structure DF where
  cols : List (String × PType)
  rows : List Row
deriving DecidableEq

/-- The column names of a dataframe. -/
def DF.colNames (df : DF) : List String := df.cols.map Prod.fst

/-- The with_columns update of a column list: an existing column keeps its
position (its dtype updated), a new column is appended. -/
def addColType (cols : List (String × PType)) (n : String) (t : PType) :
    List (String × PType) :=
  if cols.any (fun c => c.1 = n) then
    cols.map (fun c => if c.1 = n then (n, t) else c)
  else cols ++ [(n, t)]

/-- enforce_output_schema on a dataframe: select, for every canonical
field in the fixed canonical order, the cast of the existing column or a
typed null literal; any failing cast raises. -/
def enforce_output_schema (df : DF) : Except String DF :=
  (mapE (enforceRow df.colNames) df.rows).map (fun rs => DF.mk OUTPUT_SCHEMA rs)

/-- The metadata stamping of finalize_and_enforce_schema on one row:
shard_hash is the (library) hash of the nct_id cell and
processing_timestamp is the wall-clock instant of the run, passed in
explicitly since the code reads it from the clock. -/
def finalizeRow (h : PValue → Nat) (now : Nat) (r : Row) : Row :=
  rowSet (rowSet r "shard_hash" (.uint (h (rowGet r "nct_id")))) "processing_timestamp"
    (.datetime now)

/-- finalize_and_enforce_schema: stamp shard_hash and processing_timestamp
with with_columns, then enforce the output schema. -/
def finalize_and_enforce_schema (h : PValue → Nat) (now : Nat) (df : DF) :
    Except String DF :=
  enforce_output_schema
    (DF.mk (addColType (addColType df.cols "shard_hash" .uint64) "processing_timestamp" .datetime)
      (df.rows.map (finalizeRow h now)))

/-! ## Overlap analysis and sharding (metaflow/harmonization.py) -/

/-- The overlap statistics of analyze_overlap.  The floating-point
overlap_percentage entry is omitted from the model. -/
structure OverlapStats where
  csvTotal : Nat
  jsonTotal : Nat
  overlapCount : Nat
  csvOnlyCount : Nat
  jsonOnlyCount : Nat
  overlap : Finset String
  csvOnly : Finset String
  jsonOnly : Finset String
deriving DecidableEq

/-- analyze_overlap on the two identifier universes: overlap is the
intersection, csv_only the left difference, and json_only is computed in
the code as the JSON set minus the overlap. -/
def analyze_overlap (csvNctIds jsonNctIds : Finset String) : OverlapStats :=
  let overlap := csvNctIds ∩ jsonNctIds
  let csvOnly := csvNctIds \ jsonNctIds
  let jsonOnly := jsonNctIds \ overlap
  { csvTotal := csvNctIds.card
    jsonTotal := jsonNctIds.card
    overlapCount := overlap.card
    csvOnlyCount := csvOnly.card
    jsonOnlyCount := jsonOnly.card
    overlap := overlap
    csvOnly := csvOnly
    jsonOnly := jsonOnly }

/-- Metadata of one persisted shard: its id and its records (standing for
the parquet artifact; the reported record_count is the length). -/
structure ShardMeta where
  shardId : Nat
  records : List Row
deriving DecidableEq

/-- The shard assignment of one record in create_shards: the library hash
of the nct_id cell modulo the shard count.  The polars column hash is the
explicit parameter h. -/
def shardAssign (h : PValue → Nat) (shardCount : Nat) (r : Row) : Nat :=
  h (rowGet r "nct_id") % shardCount

/-- create_shards: stamp each record with its shard_id, then for each id
in range keep the non-empty groups, in shard-id order. -/
def create_shards (h : PValue → Nat) (df : DF) (shardCount : Nat) : List ShardMeta :=
  let dfWithShards := df.rows.map
    (fun r => rowSet r "shard_id" (.uint (shardAssign h shardCount r)))
  (List.range shardCount).filterMap (fun i =>
    let shardData := dfWithShards.filter (fun r => decide (rowGet r "shard_id" = .uint i))
    if shardData.length > 0 then some (ShardMeta.mk i shardData) else none)

/-! ## Source preparation (processing/preparation.py) -/

/-- The CSV-to-harmonized column rename mapping of
standardize_csv_columns. -/
def renameMap : List (String × String) := [
  ("NCT Number", "nct_id"),
  ("Study Title", "title"),
  ("Study URL", "study_url"),
  ("Acronym", "acronym"),
  ("Study Status", "overall_status"),
  ("Study Results", "has_results"),
  ("Conditions", "conditions"),
  ("Interventions", "interventions"),
  ("Sponsor", "lead_sponsor"),
  ("Collaborators", "collaborators"),
  ("Sex", "sex"),
  ("Age", "minimum_age"),
  ("Phases", "study_phase"),
  ("Enrollment", "enrollment"),
  ("Start Date", "start_date"),
  ("Primary Completion Date", "primary_completion_date"),
  ("Completion Date", "completion_date"),
  ("First Posted", "first_posted"),
  ("Last Update Posted", "last_update_posted"),
  ("Study Documents", "document_urls"),
  ("Locations", "locations")]

/-- Rename one column name; names outside the mapping are unchanged
(the code renames only the mapped columns that exist). -/
def renameName (n : String) : String :=
  ((renameMap.find? (fun p => decide (p.1 = n))).map Prod.snd).getD n

/-- The harmonized names of the pipe-delimited list fields split by
standardize_csv_columns. -/
def listFields : List String :=
  ["conditions", "interventions", "collaborators", "document_urls", "locations"]

/-- The harmonized names of the date fields parsed by
standardize_csv_columns. -/
def dateFields : List String :=
  ["start_date", "primary_completion_date", "completion_date", "first_posted",
   "last_update_posted"]

/-- str.split of a cell on the pipe delimiter followed by fill_null of the
empty list. -/
def splitListV : PValue → PValue
  | .str s => .list (s.splitOn "|")
  | .null => .list []
  | v => v

/-- The date conversion chain of standardize_csv_columns: try the three
formats in order with non-strict parses, an unparseable cell becomes
null.  The strptime primitive of the dataframe library is the explicit
parameter pd (format, cell text to parsed day number). -/
def parseDateV (pd : String → String → Option Nat) : PValue → PValue
  | .str s =>
      match pd "%B %d, %Y" s with
      | some d => .date d
      | none =>
          match pd "%Y-%m-%d" s with
          | some d => .date d
          | none =>
              match pd "%m/%d/%Y" s with
              | some d => .date d
              | none => .null
  | _ => .null

/-- The boolean conversion of the has_results flag: lowercase membership
in the truthy token set. -/
def parseBoolV : PValue → PValue
  | .str s => .bool (s.toLower = "yes" || s.toLower = "true" || s.toLower = "1")
  | _ => .null

/-- The non-strict Int64 cast of the enrollment field: an unparseable cell
becomes null. -/
def castInt64NonStrictV : PValue → PValue
  | .str s =>
      match parseIntString s with
      | some i => .int i
      | none => .null
  | .int i => .int i
  | _ => .null

/-- The per-column transformation of standardize_csv_columns, keyed by the
harmonized column name. -/
def standardizeValue (pd : String → String → Option Nat) (n : String) (v : PValue) :
    PValue :=
  if n ∈ listFields then splitListV v
  else if n ∈ dateFields then parseDateV pd v
  else if n = "has_results" then parseBoolV v
  else if n = "enrollment" then castInt64NonStrictV v
  else v

/-- The dtype of a standardized column. -/
def standardizedColType (n : String) (t : PType) : PType :=
  if n ∈ listFields then .listUtf8
  else if n ∈ dateFields then .date
  else if n = "has_results" then .boolean
  else if n = "enrollment" then .int64
  else t

/-- standardize_csv_columns: rename the mapped columns that exist, then
apply the list, date, boolean and numeric conversions to the fields that
exist. -/
def standardize_csv_columns (pd : String → String → Option Nat) (df : DF) : DF :=
  DF.mk
    (df.cols.map (fun c => (renameName c.1, standardizedColType (renameName c.1) c.2)))
    (df.rows.map (fun r =>
      r.map (fun e => (renameName e.1, standardizeValue pd (renameName e.1) e.2))))

/-- prepare_csv_df: an empty target identifier set yields the empty frame
with just the typed join key; otherwise filter the source by the
identifier column and standardize. -/
def prepare_csv_df (pd : String → String → Option Nat) (csvLf : DF)
    (nctIds : Finset String) : DF :=
  if nctIds = ∅ then DF.mk [("nct_id", .utf8)] []
  else
    standardize_csv_columns pd
      (DF.mk csvLf.cols (csvLf.rows.filter (fun r =>
        match rowGet r "NCT Number" with
        | .str s => decide (s ∈ nctIds)
        | _ => false)))

/-- The load outcome for one identifier in the document store: the file is
missing, it fails json parsing or pydantic validation, or it is valid with
the given flattened field row (the fields other than json_nct_id). -/
inductive DocOutcome where
  | missing : DocOutcome
  | invalid : DocOutcome
  | valid : Row → DocOutcome
deriving DecidableEq

/-- Whether a store outcome is a successful load. -/
def DocOutcome.isValid : DocOutcome → Bool
  | .valid _ => true
  | _ => false

/-- flatten_json_record: the validated record projected to a single-level
row headed by the identifier. -/
def flatten_json_record (nctId : String) (fields : Row) : Row :=
  ("json_nct_id", .str nctId) :: fields

/-- process_file of load_and_flatten_json_records: a missing file returns
none, a failing parse or validation logs a warning and returns none, a
valid document is flattened.  No outcome raises. -/
def process_file (store : String → DocOutcome) (nctId : String) : Option Row :=
  match store nctId with
  | .missing => none
  | .invalid => none
  | .valid fields => some (flatten_json_record nctId fields)

/-- load_and_flatten_json_records: each requested identifier is processed
independently and failed identifiers are dropped from the result. -/
def load_and_flatten_json_records (store : String → DocOutcome)
    (nctIds : List String) : List Row :=
  nctIds.filterMap (process_file store)

/-- The column list of the flattened JSON frame, as emitted by
flatten_json_record for every valid document. -/
def jsonCols : List (String × PType) := [
  ("json_nct_id", .utf8),
  ("json_official_title", .utf8),
  ("json_brief_title", .utf8),
  ("json_acronym", .utf8),
  ("json_overall_status", .utf8),
  ("json_study_type", .utf8),
  ("json_phases", .listUtf8),
  ("json_has_results", .boolean),
  ("json_brief_summary", .utf8),
  ("json_detailed_description", .utf8),
  ("json_conditions", .listUtf8),
  ("json_interventions", .listUtf8),
  ("json_condition_meshes", .listUtf8),
  ("json_sex", .utf8),
  ("json_minimum_age", .utf8),
  ("json_maximum_age", .utf8),
  ("json_healthy_volunteers", .boolean),
  ("json_enrollment", .int64),
  ("json_start_date", .utf8),
  ("json_completion_date", .utf8),
  ("json_document_files", .listUtf8)]

/-- prepare_json_df: an empty request or zero successful loads yields the
empty frame with just the typed join key; otherwise the frame of the
flattened records. -/
def prepare_json_df (store : String → DocOutcome) (nctIds : List String) : DF :=
  if nctIds = [] then DF.mk [("json_nct_id", .utf8)] []
  else
    let recs := load_and_flatten_json_records store nctIds
    if recs = [] then DF.mk [("json_nct_id", .utf8)] []
    else DF.mk jsonCols recs

/-! ## Merge and full harmonization (metaflow/harmonization.py) -/

/-- Drop the right-side join key, which the outer_coalesce join folds into
the surviving nct_id column. -/
def dropJsonKey (j : Row) : Row := j.filter (fun e => decide (e.1 ≠ "json_nct_id"))

/-- The full outer join of the two prepared frames on
nct_id = json_nct_id with how set to outer_coalesce: matched rows carry
the columns of both sides under the coalesced key, unmatched left rows
pass through (the right columns reading as null), unmatched right rows
receive their key as the coalesced nct_id. -/
def joinOuterCoalesce (csv json : DF) : DF :=
  DF.mk
    (csv.cols ++ json.cols.filter (fun c => decide (c.1 ≠ "json_nct_id")))
    ((csv.rows.map (fun c =>
        match json.rows.find? (fun j =>
            decide (rowGet j "json_nct_id" = rowGet c "nct_id")) with
        | some j => c ++ dropJsonKey j
        | none => c)) ++
      ((json.rows.filter (fun j =>
          !(csv.rows.any (fun c =>
            decide (rowGet c "nct_id" = rowGet j "json_nct_id"))))).map
        (fun j => ("nct_id", rowGet j "json_nct_id") :: dropJsonKey j)))

/-- The harmonization statistics dict of harmonize_data.  Its only entries
are the CSV input count, the JSON input count (successful loads) and the
output count. -/
structure HarmonizationStats where
  inputCsvRecords : Nat
  inputJsonRecords : Nat
  outputRecords : Nat
deriving DecidableEq

/-- Fold a list of with_columns updates over a column list. -/
def addColTypes (cols : List (String × PType)) (us : List (String × PType)) :
    List (String × PType) :=
  us.foldl (fun cs u => addColType cs u.1 u.2) cols

/-- harmonize_data: prepare both sources (the code passes the union of the
overlap and the source-only identifier sets of the overlap stats to each
preparer; here those unions are the csvIds and jsonIds parameters — the
preparers are pure here so their early evaluation in the source changes
nothing), then fetch the strategy configuration.  That call raises on
every invocation (see get_strategy_config), so the AttributeError
propagates out of harmonize_data before the outer join, the empty-merge
branch, the coalescing, the schema enforcement and the statistics dict,
all of which are written out below as the source has them but are
unreachable. -/
def harmonize_data (pd : String → String → Option Nat) (h : PValue → Nat)
    (csvLf : DF) (store : String → DocOutcome) (csvIds : Finset String)
    (jsonIds : List String) (s : DeduplicationStrategy) (now : Nat) :
    Except String (DF × HarmonizationStats) :=
  match get_strategy_config s with
  | .error e => .error e
  | .ok cfg =>
      (if (joinOuterCoalesce (prepare_csv_df pd csvLf csvIds)
            (prepare_json_df store jsonIds)).rows.length = 0 then
          .ok (DF.mk OUTPUT_SCHEMA [])
        else
          finalize_and_enforce_schema h now
            (DF.mk
              (addColType
                (addColTypes
                  (joinOuterCoalesce (prepare_csv_df pd csvLf csvIds)
                    (prepare_json_df store jsonIds)).cols cfg.coalesce_cols)
                "data_source" .utf8)
              ((joinOuterCoalesce (prepare_csv_df pd csvLf csvIds)
                  (prepare_json_df store jsonIds)).rows.map (fun r =>
                rowSet (cfg.coalesce_func r) "data_source"
                  (.str (cfg.source_logic (cfg.coalesce_func r))))))).map
        (fun harmonized =>
          (harmonized,
            HarmonizationStats.mk (prepare_csv_df pd csvLf csvIds).rows.length
              (prepare_json_df store jsonIds).rows.length
              harmonized.rows.length))

/-! ## Supporting lemmas about the embedding -/

theorem mapE_ok_mem {α β : Type} {f : α → Except String β} {l : List α}
    {ys : List β} (h : mapE f l = .ok ys) :
    ∀ y ∈ ys, ∃ x ∈ l, f x = .ok y := by
  induction l generalizing ys with
  | nil =>
      unfold mapE at h
      cases h
      intro y hy
      simp at hy
  | cons x xs ih =>
      unfold mapE at h
      cases hfx : f x with
      | error e => rw [hfx] at h; cases h
      | ok y0 =>
          rw [hfx] at h
          cases hrest : mapE f xs with
          | error e => rw [hrest] at h; cases h
          | ok ys0 =>
              rw [hrest] at h
              cases h
              intro y hy
              rcases List.mem_cons.mp hy with hy | hy
              · exact ⟨x, List.mem_cons_self x xs, hy ▸ hfx⟩
              · obtain ⟨x2, hx2, hfx2⟩ := ih hrest y hy
                exact ⟨x2, List.mem_cons_of_mem x hx2, hfx2⟩

theorem mapE_ok_all {α β : Type} {f : α → Except String β} {l : List α}
    {ys : List β} (h : mapE f l = .ok ys) :
    ∀ x ∈ l, ∃ y, f x = .ok y := by
  induction l generalizing ys with
  | nil => intro x hx; simp at hx
  | cons x xs ih =>
      unfold mapE at h
      cases hfx : f x with
      | error e => rw [hfx] at h; cases h
      | ok y0 =>
          rw [hfx] at h
          cases hrest : mapE f xs with
          | error e => rw [hrest] at h; cases h
          | ok ys0 =>
              intro x2 hx2
              rcases List.mem_cons.mp hx2 with hx2 | hx2
              · exact ⟨y0, hx2 ▸ hfx⟩
              · exact ih hrest x2 hx2

theorem mapE_ok_length {α β : Type} {f : α → Except String β} {l : List α}
    {ys : List β} (h : mapE f l = .ok ys) : ys.length = l.length := by
  induction l generalizing ys with
  | nil => unfold mapE at h; cases h; rfl
  | cons x xs ih =>
      unfold mapE at h
      cases hfx : f x with
      | error e => rw [hfx] at h; cases h
      | ok y0 =>
          rw [hfx] at h
          cases hrest : mapE f xs with
          | error e => rw [hrest] at h; cases h
          | ok ys0 =>
              rw [hrest] at h
              cases h
              simp [ih hrest]

theorem castStrict_of_hasType {t : PType} {v : PValue} (h : v.hasType t = true) :
    castStrict t v = .ok v := by
  unfold castStrict
  by_cases hn : v = .null
  · simp [hn]
  · simp [hn, h]

theorem castStrict_ok_hasType {t : PType} {v w : PValue}
    (h : castStrict t v = .ok w) : w.hasType t = true := by
  unfold castStrict at h
  by_cases hn : v = .null
  · rw [if_pos hn] at h; cases h; rfl
  · rw [if_neg hn] at h
    by_cases hty : v.hasType t = true
    · rw [if_pos hty] at h; cases h; exact hty
    · rw [if_neg hty] at h
      split at h <;>
        first
          | (cases h <;> rfl)
          | (split at h <;> (cases h <;> rfl))
          | (split at h <;>
              first
                | (cases h <;> rfl)
                | (split at h <;> (cases h <;> rfl)))

theorem enforceField_ok_spec {names : List String} {r : Row} {nt : String × PType}
    {y : String × PValue} (h : enforceField names r nt = .ok y) :
    y.1 = nt.1 ∧
      ((nt.1 ∈ names ∧ castStrict nt.2 (rowGet r nt.1) = .ok y.2) ∨
        (nt.1 ∉ names ∧ y.2 = .null)) := by
  unfold enforceField at h
  by_cases hm : nt.1 ∈ names
  · rw [if_pos hm] at h
    cases hc : castStrict nt.2 (rowGet r nt.1) with
    | error e => rw [hc] at h; cases h
    | ok v =>
        rw [hc] at h
        simp only [Except.map] at h
        cases h
        exact ⟨rfl, Or.inl ⟨hm, rfl⟩⟩
  · rw [if_neg hm] at h
    cases h
    exact ⟨rfl, Or.inr ⟨hm, rfl⟩⟩

theorem mapE_enforceField_names {names : List String} {r : Row}
    {L : List (String × PType)} {ro : Row}
    (hok : mapE (enforceField names r) L = .ok ro) :
    ro.map Prod.fst = L.map Prod.fst := by
  induction L generalizing ro with
  | nil => unfold mapE at hok; cases hok; rfl
  | cons mt L ih =>
      unfold mapE at hok
      cases hf : enforceField names r mt with
      | error e => rw [hf] at hok; cases hok
      | ok y =>
          rw [hf] at hok
          cases hrest : mapE (enforceField names r) L with
          | error e => rw [hrest] at hok; cases hok
          | ok ys =>
              rw [hrest] at hok
              cases hok
              simp [List.map_cons, (enforceField_ok_spec hf).1, ih hrest]

theorem mapE_enforceField_get {names : List String} {r : Row}
    {L : List (String × PType)} {ro : Row}
    (hok : mapE (enforceField names r) L = .ok ro)
    (hnd : (L.map Prod.fst).Nodup) :
    ∀ nt ∈ L,
      (nt.1 ∈ names → castStrict nt.2 (rowGet r nt.1) = .ok (rowGet ro nt.1)) ∧
      (nt.1 ∉ names → rowGet ro nt.1 = .null) := by
  induction L generalizing ro with
  | nil => intro nt hmem; simp at hmem
  | cons mt L ih =>
      unfold mapE at hok
      cases hf : enforceField names r mt with
      | error e => rw [hf] at hok; cases hok
      | ok y =>
          rw [hf] at hok
          cases hrest : mapE (enforceField names r) L with
          | error e => rw [hrest] at hok; cases hok
          | ok ys =>
              rw [hrest] at hok
              cases hok
              obtain ⟨hfst, hspec⟩ := enforceField_ok_spec hf
              simp only [List.map_cons, List.nodup_cons] at hnd
              intro nt hmem
              rcases List.mem_cons.mp hmem with hcase | hcase
              · subst hcase
                obtain ⟨y1, y2⟩ := y
                have hg : rowGet ((y1, y2) :: ys) nt.1 = y2 := by
                  simp only [rowGet]
                  rw [if_pos hfst]
                rw [hg]
                rcases hspec with ⟨hin, hcast⟩ | ⟨hout, hnull⟩
                · exact ⟨fun _ => hcast, fun hq => absurd hin hq⟩
                · exact ⟨fun hq => absurd hq hout, fun _ => hnull⟩
              · have hne : mt.1 ≠ nt.1 := by
                  intro he
                  exact hnd.1 (he ▸ List.mem_map_of_mem Prod.fst hcase)
                obtain ⟨y1, y2⟩ := y
                have hy1 : y1 = mt.1 := hfst
                have hg : rowGet ((y1, y2) :: ys) nt.1 = rowGet ys nt.1 := by
                  simp only [rowGet]
                  rw [if_neg (by rw [hy1]; exact hne)]
                rw [hg]
                exact ih hrest hnd.2 nt hcase

theorem rowGet_finalizeRow_shard (h : PValue → Nat) (now : Nat) (r : Row) :
    rowGet (finalizeRow h now r) "shard_hash" = .uint (h (rowGet r "nct_id")) := by
  unfold finalizeRow
  rw [rowGet_rowSet_ne _ _ _ _ (by decide), rowGet_rowSet_self]

theorem rowGet_finalizeRow_ts (h : PValue → Nat) (now : Nat) (r : Row) :
    rowGet (finalizeRow h now r) "processing_timestamp" = .datetime now := by
  unfold finalizeRow
  rw [rowGet_rowSet_self]

theorem rowGet_finalizeRow_ne (h : PValue → Nat) (now : Nat) (r : Row) (n : String)
    (h1 : n ≠ "shard_hash") (h2 : n ≠ "processing_timestamp") :
    rowGet (finalizeRow h now r) n = rowGet r n := by
  unfold finalizeRow
  rw [rowGet_rowSet_ne _ _ _ _ h2, rowGet_rowSet_ne _ _ _ _ h1]

theorem mem_names_addColType_self (cols : List (String × PType)) (n : String)
    (t : PType) : n ∈ (addColType cols n t).map Prod.fst := by
  unfold addColType
  by_cases ha : cols.any (fun c => c.1 = n)
  · rw [if_pos ha]
    obtain ⟨c, hc, hceq⟩ := List.any_eq_true.mp ha
    simp only [decide_eq_true_eq] at hceq
    have hmem : (n, t) ∈ cols.map (fun c => if c.1 = n then (n, t) else c) :=
      List.mem_map.mpr ⟨c, hc, by rw [if_pos hceq]⟩
    simpa using List.mem_map_of_mem Prod.fst hmem
  · rw [if_neg ha]
    simp

theorem mem_names_addColType_mono (cols : List (String × PType)) (n m : String)
    (t : PType) (hm : m ∈ cols.map Prod.fst) :
    m ∈ (addColType cols n t).map Prod.fst := by
  unfold addColType
  by_cases ha : cols.any (fun c => c.1 = n)
  · rw [if_pos ha]
    obtain ⟨c, hc, hceq⟩ := List.mem_map.mp hm
    by_cases hcn : c.1 = n
    · have : m = n := by rw [← hceq, hcn]
      subst this
      have hmem : (m, t) ∈ cols.map (fun c => if c.1 = m then (m, t) else c) :=
        List.mem_map.mpr ⟨c, hc, by rw [if_pos hcn]⟩
      simpa using List.mem_map_of_mem Prod.fst hmem
    · have hmem : c ∈ cols.map (fun c => if c.1 = n then (n, t) else c) :=
        List.mem_map.mpr ⟨c, hc, by rw [if_neg hcn]⟩
      rw [← hceq]
      exact List.mem_map_of_mem Prod.fst hmem
  · rw [if_neg ha]
    rw [List.map_append]
    exact List.mem_append_left _ hm

theorem OUTPUT_SCHEMA_names_nodup : (OUTPUT_SCHEMA.map Prod.fst).Nodup := by decide

/-- The column-name list of the frame stamped by
finalize_and_enforce_schema before the final select. -/
def stampedNames (df : DF) : List String :=
  (addColType (addColType df.cols "shard_hash" .uint64) "processing_timestamp"
    .datetime).map Prod.fst

theorem stampedNames_shard (df : DF) : "shard_hash" ∈ stampedNames df :=
  mem_names_addColType_mono _ "processing_timestamp" "shard_hash" _
    (mem_names_addColType_self df.cols "shard_hash" .uint64)

theorem stampedNames_ts (df : DF) : "processing_timestamp" ∈ stampedNames df :=
  mem_names_addColType_self _ "processing_timestamp" .datetime

theorem stampedNames_mono (df : DF) (m : String) (hm : m ∈ df.colNames) :
    m ∈ stampedNames df :=
  mem_names_addColType_mono _ "processing_timestamp" m _
    (mem_names_addColType_mono _ "shard_hash" m _ hm)

theorem finalize_ok_elim {h : PValue → Nat} {now : Nat} {df out : DF}
    (hok : finalize_and_enforce_schema h now df = .ok out) :
    out.cols = OUTPUT_SCHEMA ∧
    ∀ ro ∈ out.rows, ∃ r ∈ df.rows,
      mapE (enforceField (stampedNames df) (finalizeRow h now r)) OUTPUT_SCHEMA = .ok ro := by
  unfold finalize_and_enforce_schema enforce_output_schema at hok
  cases hrs : mapE (enforceRow (stampedNames df)) (df.rows.map (finalizeRow h now)) with
  | error e =>
      rw [show DF.colNames (DF.mk (addColType (addColType df.cols "shard_hash" .uint64)
        "processing_timestamp" .datetime) (df.rows.map (finalizeRow h now))) = stampedNames df
        from rfl] at hok
      rw [hrs] at hok
      cases hok
  | ok rs =>
      rw [show DF.colNames (DF.mk (addColType (addColType df.cols "shard_hash" .uint64)
        "processing_timestamp" .datetime) (df.rows.map (finalizeRow h now))) = stampedNames df
        from rfl] at hok
      rw [hrs] at hok
      simp only [Except.map] at hok
      cases hok
      refine ⟨rfl, ?_⟩
      intro ro hro
      obtain ⟨r2, hr2mem, hr2⟩ := mapE_ok_mem hrs ro hro
      obtain ⟨r, hr, hreq⟩ := List.mem_map.mp hr2mem
      subst hreq
      exact ⟨r, hr, hr2⟩

/-! ## Claim theorems -/

/-- C6: every successful output of the schema enforcer
(finalize_and_enforce_schema) has exactly the canonical columns in the
fixed canonical order (independent of the input column set or order),
every canonical field of every record inhabits its declared type, and the
content hash (shard_hash) and processing timestamp cells are non-null. -/
theorem canonical_schema_invariant (h : PValue → Nat) (now : Nat) (df out : DF)
    (hok : finalize_and_enforce_schema h now df = .ok out) :
    out.cols = OUTPUT_SCHEMA ∧
    ∀ ro ∈ out.rows,
      ro.map Prod.fst = OUTPUT_SCHEMA.map Prod.fst ∧
      (∀ nt ∈ OUTPUT_SCHEMA, (rowGet ro nt.1).hasType nt.2 = true) ∧
      rowGet ro "shard_hash" ≠ PValue.null ∧
      rowGet ro "processing_timestamp" ≠ PValue.null := by
  obtain ⟨hcols, hrows⟩ := finalize_ok_elim hok
  refine ⟨hcols, ?_⟩
  intro ro hro
  obtain ⟨r, hr, hrok⟩ := hrows ro hro
  have hget := mapE_enforceField_get hrok OUTPUT_SCHEMA_names_nodup
  refine ⟨mapE_enforceField_names hrok, ?_, ?_, ?_⟩
  · intro nt hnt
    by_cases hin : nt.1 ∈ stampedNames df
    · exact castStrict_ok_hasType ((hget nt hnt).1 hin)
    · rw [(hget nt hnt).2 hin]; rfl
  · have hcast := (hget ("shard_hash", PType.uint64) (by decide)).1 (stampedNames_shard df)
    have hct : castStrict PType.uint64 (PValue.uint (h (rowGet r "nct_id")))
        = .ok (PValue.uint (h (rowGet r "nct_id"))) := castStrict_of_hasType rfl
    rw [rowGet_finalizeRow_shard, hct] at hcast
    have h3 := Except.ok.inj hcast
    rw [← h3]
    exact fun hc => PValue.noConfusion hc
  · have hcast := (hget ("processing_timestamp", PType.datetime) (by decide)).1
      (stampedNames_ts df)
    have hct : castStrict PType.datetime (PValue.datetime now)
        = .ok (PValue.datetime now) := castStrict_of_hasType rfl
    rw [rowGet_finalizeRow_ts, hct] at hcast
    have h3 := Except.ok.inj hcast
    rw [← h3]
    exact fun hc => PValue.noConfusion hc

/-- One-record concrete input used to witness the schema invariant. -/
def schemaWitnessInput : DF :=
  DF.mk [("nct_id", PType.utf8)] [[("nct_id", PValue.str "NCT00000001")]]

/-- The enforced output of the witness input under hash 7 at instant 5. -/
def schemaWitnessOutput : DF :=
  DF.mk OUTPUT_SCHEMA [OUTPUT_SCHEMA.map (fun nt =>
    (nt.1,
      if nt.1 = "nct_id" then PValue.str "NCT00000001"
      else if nt.1 = "shard_hash" then PValue.uint 7
      else if nt.1 = "processing_timestamp" then PValue.datetime 5
      else PValue.null))]

/-- Witness for C6: the invariant instantiated on a concrete one-record
frame, with the enforcement hypothesis discharged by evaluation. -/
theorem canonical_schema_invariant_witness :
    finalize_and_enforce_schema (fun _ => 7) 5 schemaWitnessInput
      = .ok schemaWitnessOutput ∧
    (schemaWitnessOutput.cols = OUTPUT_SCHEMA ∧
      ∀ ro ∈ schemaWitnessOutput.rows,
        ro.map Prod.fst = OUTPUT_SCHEMA.map Prod.fst ∧
        (∀ nt ∈ OUTPUT_SCHEMA, (rowGet ro nt.1).hasType nt.2 = true) ∧
        rowGet ro "shard_hash" ≠ PValue.null ∧
        rowGet ro "processing_timestamp" ≠ PValue.null) := by
  have hok : finalize_and_enforce_schema (fun _ => 7) 5 schemaWitnessInput
      = .ok schemaWitnessOutput := by rfl
  exact ⟨hok, canonical_schema_invariant (fun _ => 7) 5 schemaWitnessInput
    schemaWitnessOutput hok⟩

/-- C5 counterexample: the schema enforcer casts present columns with the
polars default strict cast, so an uncastable cell raises an error instead
of becoming null; and an absent list-typed field is synthesized as a typed
null, not as an empty sequence. -/
theorem schema_nonstrict_cast_counterexample :
    enforce_output_schema
        (DF.mk [("enrollment", PType.utf8)] [[("enrollment", PValue.str "many")]])
      = .error "conversion from str to int64 failed" ∧
    (enforce_output_schema
        (DF.mk [("nct_id", PType.utf8)] [[("nct_id", PValue.str "NCT00000001")]])).map
        (fun out => out.rows.map (fun ro => rowGet ro "conditions"))
      = .ok [PValue.null] ∧
    PValue.null ≠ PValue.list [] :=
  ⟨rfl, rfl, fun hc => PValue.noConfusion hc⟩

/-- C5 amended: for every canonical field, a field present in the input is
cast to the declared type with the default strict cast (so a successful
enforcement implies every present cell was strictly castable; an
uncastable cell makes the whole enforcement raise), and a field absent
from the input becomes a typed null in every output record, also for
list-typed fields (null, not an empty sequence). -/
theorem schema_enforcement_semantics (df out : DF)
    (hok : enforce_output_schema df = .ok out) :
    (∀ r ∈ df.rows, ∀ nt ∈ OUTPUT_SCHEMA, nt.1 ∈ df.colNames →
        ∃ v, castStrict nt.2 (rowGet r nt.1) = .ok v) ∧
    (∀ ro ∈ out.rows, ∀ nt ∈ OUTPUT_SCHEMA, nt.1 ∉ df.colNames →
        rowGet ro nt.1 = PValue.null) := by
  unfold enforce_output_schema at hok
  cases hrs : mapE (enforceRow df.colNames) df.rows with
  | error e => rw [hrs] at hok; cases hok
  | ok rs =>
      rw [hrs] at hok
      simp only [Except.map] at hok
      cases hok
      constructor
      · intro r hr nt hnt hin
        obtain ⟨ro, hro⟩ := mapE_ok_all hrs r hr
        obtain ⟨y, hy⟩ := mapE_ok_all hro nt hnt
        obtain ⟨_, hspec⟩ := enforceField_ok_spec hy
        rcases hspec with ⟨_, hcast⟩ | ⟨hout, _⟩
        · exact ⟨y.2, hcast⟩
        · exact absurd hin hout
      · intro ro hro nt hnt hout
        obtain ⟨r, hr, hrok⟩ := mapE_ok_mem hrs ro hro
        exact (mapE_enforceField_get hrok OUTPUT_SCHEMA_names_nodup nt hnt).2 hout

/-- Witness for C5: the amended semantics instantiated on a concrete
one-record frame with a present castable field and absent fields. -/
theorem schema_enforcement_semantics_witness :
    enforce_output_schema
        (DF.mk [("nct_id", PType.utf8)] [[("nct_id", PValue.str "NCT00000001")]])
      = .ok (DF.mk OUTPUT_SCHEMA [OUTPUT_SCHEMA.map (fun nt =>
          (nt.1, if nt.1 = "nct_id" then PValue.str "NCT00000001" else PValue.null))]) ∧
    ((∀ r ∈ (DF.mk [("nct_id", PType.utf8)]
          [[("nct_id", PValue.str "NCT00000001")]]).rows,
        ∀ nt ∈ OUTPUT_SCHEMA,
          nt.1 ∈ (DF.mk [("nct_id", PType.utf8)]
            [[("nct_id", PValue.str "NCT00000001")]]).colNames →
          ∃ v, castStrict nt.2 (rowGet r nt.1) = .ok v) ∧
      (∀ ro ∈ (DF.mk OUTPUT_SCHEMA [OUTPUT_SCHEMA.map (fun nt =>
            (nt.1, if nt.1 = "nct_id" then PValue.str "NCT00000001"
              else PValue.null))]).rows,
        ∀ nt ∈ OUTPUT_SCHEMA,
          nt.1 ∉ (DF.mk [("nct_id", PType.utf8)]
            [[("nct_id", PValue.str "NCT00000001")]]).colNames →
          rowGet ro nt.1 = PValue.null)) := by
  have hok : enforce_output_schema
      (DF.mk [("nct_id", PType.utf8)] [[("nct_id", PValue.str "NCT00000001")]])
      = .ok (DF.mk OUTPUT_SCHEMA [OUTPUT_SCHEMA.map (fun nt =>
          (nt.1, if nt.1 = "nct_id" then PValue.str "NCT00000001" else PValue.null))]) := by
    rfl
  exact ⟨hok, schema_enforcement_semantics _ _ hok⟩

/-- C10: for every record of the schema-enforced table and every shard
count of at least one, the shard id assigned by create_shards equals the
content hash column modulo the shard count, because both are the same
library hash of the same (unchanged) identifier column. -/
theorem content_hash_determines_shard (h : PValue → Nat) (now shardCount : Nat)
    (df out : DF) (hok : finalize_and_enforce_schema h now df = .ok out)
    (_hN : 1 ≤ shardCount)
    (hkey : "nct_id" ∈ df.colNames)
    (hcells : ∀ r ∈ df.rows, (rowGet r "nct_id").hasType .utf8 = true) :
    ∀ ro ∈ out.rows,
      rowGet ro "shard_hash" = .uint (h (rowGet ro "nct_id")) ∧
      ∀ m, rowGet ro "shard_hash" = .uint m →
        shardAssign h shardCount ro = m % shardCount := by
  obtain ⟨-, hrows⟩ := finalize_ok_elim hok
  intro ro hro
  obtain ⟨r, hr, hrok⟩ := hrows ro hro
  have hget := mapE_enforceField_get hrok OUTPUT_SCHEMA_names_nodup
  have hnctid : rowGet ro "nct_id" = rowGet r "nct_id" := by
    have hcast := (hget ("nct_id", PType.utf8) (by decide)).1 (stampedNames_mono df _ hkey)
    rw [rowGet_finalizeRow_ne h now r "nct_id" (by decide) (by decide)] at hcast
    rw [castStrict_of_hasType (hcells r hr)] at hcast
    exact (Except.ok.inj hcast).symm
  have hshard : rowGet ro "shard_hash" = .uint (h (rowGet r "nct_id")) := by
    have hcast := (hget ("shard_hash", PType.uint64) (by decide)).1 (stampedNames_shard df)
    have hct : castStrict PType.uint64 (PValue.uint (h (rowGet r "nct_id")))
        = .ok (PValue.uint (h (rowGet r "nct_id"))) := castStrict_of_hasType rfl
    rw [rowGet_finalizeRow_shard, hct] at hcast
    exact (Except.ok.inj hcast).symm
  refine ⟨by rw [hshard, hnctid], ?_⟩
  intro m hm
  rw [hshard] at hm
  have hmeq : h (rowGet r "nct_id") = m := by
    cases hm
    rfl
  show h (rowGet ro "nct_id") % shardCount = m % shardCount
  rw [hnctid, hmeq]

/-- Witness for C10: a concrete enforced record with hash 7 and three
shards lands in shard 7 mod 3. -/
theorem content_hash_determines_shard_witness :
    finalize_and_enforce_schema (fun _ => 7) 5 schemaWitnessInput
      = .ok schemaWitnessOutput ∧
    1 ≤ 3 ∧
    "nct_id" ∈ schemaWitnessInput.colNames ∧
    (∀ r ∈ schemaWitnessInput.rows, (rowGet r "nct_id").hasType .utf8 = true) ∧
    (∀ ro ∈ schemaWitnessOutput.rows,
      rowGet ro "shard_hash" = .uint ((fun _ => 7) (rowGet ro "nct_id")) ∧
      ∀ m, rowGet ro "shard_hash" = .uint m →
        shardAssign (fun _ => 7) 3 ro = m % 3) := by
  have hok : finalize_and_enforce_schema (fun _ => 7) 5 schemaWitnessInput
      = .ok schemaWitnessOutput := by rfl
  refine ⟨hok, by decide, by decide, by decide, ?_⟩
  exact content_hash_determines_shard (fun _ => 7) 5 3 schemaWitnessInput
    schemaWitnessOutput hok (by decide) (by decide) (by decide)

/-- C3: for all identifier sets A (tabular) and B (document store), the
analyzer returns overlap equal to the intersection, csv_only equal to
A minus B, json_only equal to B minus A (the code computes B minus the
overlap, which coincides), the three sets are pairwise disjoint with
union A union B, and the reported counts are the cardinalities. -/
theorem analyze_overlap_partitions (A B : Finset String) :
    (analyze_overlap A B).overlap = A ∩ B ∧
    (analyze_overlap A B).csvOnly = A \ B ∧
    (analyze_overlap A B).jsonOnly = B \ A ∧
    Disjoint (analyze_overlap A B).overlap (analyze_overlap A B).csvOnly ∧
    Disjoint (analyze_overlap A B).overlap (analyze_overlap A B).jsonOnly ∧
    Disjoint (analyze_overlap A B).csvOnly (analyze_overlap A B).jsonOnly ∧
    (analyze_overlap A B).overlap ∪ (analyze_overlap A B).csvOnly ∪
        (analyze_overlap A B).jsonOnly = A ∪ B ∧
    (analyze_overlap A B).overlapCount = (A ∩ B).card ∧
    (analyze_overlap A B).csvOnlyCount = (A \ B).card ∧
    (analyze_overlap A B).jsonOnlyCount = (B \ A).card := by
  have hBA : B \ (A ∩ B) = B \ A := by
    ext x
    simp only [Finset.mem_sdiff, Finset.mem_inter]
    tauto
  have h1 : (analyze_overlap A B).overlap = A ∩ B := rfl
  have h2 : (analyze_overlap A B).csvOnly = A \ B := rfl
  have h3 : (analyze_overlap A B).jsonOnly = B \ A := hBA
  refine ⟨h1, h2, h3, ?_, ?_, ?_, ?_, rfl, rfl, congrArg Finset.card hBA⟩
  · rw [h1, h2, Finset.disjoint_left]
    intro x hx hx2
    simp only [Finset.mem_inter, Finset.mem_sdiff] at hx hx2
    tauto
  · rw [h1, h3, Finset.disjoint_left]
    intro x hx hx2
    simp only [Finset.mem_inter, Finset.mem_sdiff] at hx hx2
    tauto
  · rw [h2, h3, Finset.disjoint_left]
    intro x hx hx2
    simp only [Finset.mem_sdiff] at hx hx2
    tauto
  · rw [h1, h2, h3]
    ext x
    simp only [Finset.mem_union, Finset.mem_inter, Finset.mem_sdiff]
    tauto

/-- C2: the shard id is a pure function of the identifier cell and the
shard count: two records with the same nct_id receive the same shard id,
the shard id is always below the shard count, and re-running create_shards
on the same frame with the same count yields the identical shard list. -/
theorem shard_assignment_deterministic (h : PValue → Nat) (shardCount : Nat)
    (df : DF) (r r2 : Row) (hN : 1 ≤ shardCount)
    (hkey : rowGet r "nct_id" = rowGet r2 "nct_id") :
    shardAssign h shardCount r = shardAssign h shardCount r2 ∧
    shardAssign h shardCount r < shardCount ∧
    create_shards h df shardCount = create_shards h df shardCount := by
  refine ⟨?_, Nat.mod_lt _ (by omega), rfl⟩
  unfold shardAssign
  rw [hkey]

/-- Witness for C2 at a concrete hash, count and pair of records. -/
theorem shard_assignment_deterministic_witness :
    1 ≤ 3 ∧
    rowGet [("nct_id", PValue.str "NCT00000001")]
        "nct_id"
      = rowGet [("nct_id", PValue.str "NCT00000001"), ("title", PValue.str "T")]
        "nct_id" ∧
    (shardAssign (fun _ => 7) 3 [("nct_id", PValue.str "NCT00000001")]
        = shardAssign (fun _ => 7) 3
          [("nct_id", PValue.str "NCT00000001"), ("title", PValue.str "T")] ∧
      shardAssign (fun _ => 7) 3 [("nct_id", PValue.str "NCT00000001")] < 3 ∧
      create_shards (fun _ => 7) (DF.mk [] []) 3
        = create_shards (fun _ => 7) (DF.mk [] []) 3) :=
  ⟨by decide, by decide,
    shard_assignment_deterministic (fun _ => 7) 3 (DF.mk [] [])
      [("nct_id", PValue.str "NCT00000001")]
      [("nct_id", PValue.str "NCT00000001"), ("title", PValue.str "T")]
      (by decide) (by decide)⟩

/-- C7: preparing either source for an empty identifier set returns the
empty frame with just the correctly typed join-key column, as the claim
states; but harmonize_data on those empty inputs does not return the
error-free empty canonical frame of its own empty-merge branch: it raises
the AttributeError of get_strategy_config (the nonexistent
DataSource.CSV_PRIORITY member) before the merge, so the empty-dataset
branch the claim describes is unreachable — a defect of the code, not of
the claim. -/
theorem empty_input_degeneracy :
    (∀ pd csvLf, prepare_csv_df pd csvLf ∅ = DF.mk [("nct_id", PType.utf8)] []) ∧
    (∀ store, prepare_json_df store [] = DF.mk [("json_nct_id", PType.utf8)] []) ∧
    (∀ pd h csvLf store s now,
      harmonize_data pd h csvLf store ∅ [] s now
        = .error "AttributeError: CSV_PRIORITY") :=
  ⟨fun _ _ => rfl, fun _ => rfl, fun _ _ _ _ _ _ => rfl⟩

/-- The tabular-only Iron Study source frame of the coalescing claim. -/
def ironCsvLf : DF :=
  DF.mk [("NCT Number", PType.utf8), ("Study Title", PType.utf8)]
    [[("NCT Number", PValue.str "NCT00000001"),
      ("Study Title", PValue.str "Iron Study")]]

/-- Run the full harmonization on the Iron Study frame (document store
empty) under a strategy, projecting official_title and data_source. -/
def ironRun (s : DeduplicationStrategy) : Except String (List (PValue × PValue)) :=
  (harmonize_data (fun _ _ => none) (fun _ => 0) ironCsvLf (fun _ => DocOutcome.missing)
      {"NCT00000001"} [] s 0).map
    (fun p => p.1.rows.map (fun ro => (rowGet ro "official_title", rowGet ro "data_source")))

/-- C1 counterexample: the Iron Study record, present only in the tabular
source, is never assigned official_title Iron Study or the tabular-only
data_source label (csv_only) under any of the three strategies — each run
ends in the AttributeError get_strategy_config raises for the missing
DataSource.CSV_PRIORITY member, so no record is labeled at all. -/
theorem provenance_label_counterexample :
    ironRun .json_priority = .error "AttributeError: CSV_PRIORITY" ∧
    ironRun .csv_priority = .error "AttributeError: CSV_PRIORITY" ∧
    ironRun .merge_all = .error "AttributeError: CSV_PRIORITY" ∧
    ironRun .json_priority ≠ .ok [(.str "Iron Study", .str "csv_only")] ∧
    ironRun .csv_priority ≠ .ok [(.str "Iron Study", .str "csv_only")] ∧
    ironRun .merge_all ≠ .ok [(.str "Iron Study", .str "csv_only")] :=
  ⟨rfl, rfl, rfl,
    fun hc => Except.noConfusion hc,
    fun hc => Except.noConfusion hc,
    fun hc => Except.noConfusion hc⟩

/-- C1 amended: no merged record ever receives a data_source label.  The
strategies dict of get_strategy_config is built eagerly and its
tabular-priority entry reads DataSource.CSV_PRIORITY.value, a member the
DataSource enum does not define, so under every strategy harmonize_data
raises that AttributeError before any coalescing or provenance labeling
runs; in particular the Iron Study record is never assigned an
official_title or a data_source by this pipeline. -/
theorem provenance_label_never_assigned (s : DeduplicationStrategy) :
    get_strategy_config s = .error "AttributeError: CSV_PRIORITY" ∧
    (∀ pd h csvLf store csvIds jsonIds now,
      harmonize_data pd h csvLf store csvIds jsonIds s now
        = .error "AttributeError: CSV_PRIORITY") ∧
    ironRun s = .error "AttributeError: CSV_PRIORITY" := by
  refine ⟨rfl, fun _ _ _ _ _ _ _ => rfl, ?_⟩
  unfold ironRun
  rw [show harmonize_data (fun _ _ => none) (fun _ => 0) ironCsvLf
      (fun _ => DocOutcome.missing) {"NCT00000001"} [] s 0
      = .error "AttributeError: CSV_PRIORITY" from rfl]
  rfl

theorem prepare_json_df_rows (store : String → DocOutcome) (ids : List String) :
    (prepare_json_df store ids).rows = load_and_flatten_json_records store ids := by
  unfold prepare_json_df
  by_cases h1 : ids = []
  · subst h1
    simp [load_and_flatten_json_records]
  · rw [if_neg h1]
    by_cases h2 : load_and_flatten_json_records store ids = []
    · simp [h2]
    · simp [h2]

theorem load_excludes_failures (store : String → DocOutcome) (ids : List String)
    (badId : String) (hbad : (store badId).isValid = false) :
    ∀ ro ∈ load_and_flatten_json_records store ids,
      rowGet ro "json_nct_id" ≠ .str badId := by
  intro ro hro
  obtain ⟨i, hi, hpi⟩ := List.mem_filterMap.mp hro
  unfold process_file at hpi
  cases hs : store i with
  | missing => rw [hs] at hpi; cases hpi
  | invalid => rw [hs] at hpi; cases hpi
  | valid fields =>
      rw [hs] at hpi
      cases hpi
      intro hcontra
      have hg : rowGet (flatten_json_record i fields) "json_nct_id" = .str i := by
        unfold flatten_json_record rowGet
        rw [if_pos rfl]
      rw [hg] at hcontra
      have hib : i = badId := by cases hcontra; rfl
      subst hib
      rw [hs] at hbad
      simp [DocOutcome.isValid] at hbad

theorem load_length_by_validity (store : String → DocOutcome) (ids : List String) :
    (load_and_flatten_json_records store ids).length
      = (ids.filter (fun i => (store i).isValid)).length := by
  induction ids with
  | nil => rfl
  | cons i ids ih =>
      unfold load_and_flatten_json_records at ih ⊢
      cases hs : store i with
      | missing =>
          simp [List.filterMap_cons, List.filter_cons, process_file, hs,
            DocOutcome.isValid, ih]
      | invalid =>
          simp [List.filterMap_cons, List.filter_cons, process_file, hs,
            DocOutcome.isValid, ih]
      | valid fields =>
          simp [List.filterMap_cons, List.filter_cons, process_file, hs,
            DocOutcome.isValid, ih]

theorem load_siblings_unaffected (store store2 : String → DocOutcome)
    (ids : List String) (badId : String)
    (hagree : ∀ i, i ≠ badId → store2 i = store i) :
    (load_and_flatten_json_records store ids).filter
        (fun ro => !(decide (rowGet ro "json_nct_id" = .str badId)))
      = (load_and_flatten_json_records store2 ids).filter
        (fun ro => !(decide (rowGet ro "json_nct_id" = .str badId))) := by
  induction ids with
  | nil => rfl
  | cons i ids ih =>
      unfold load_and_flatten_json_records at ih ⊢
      simp only [List.filterMap_cons]
      by_cases hib : i = badId
      · subst hib
        have hkey : ∀ (st : String → DocOutcome) (r : Row), process_file st i = some r →
            (!decide (rowGet r "json_nct_id" = PValue.str i)) = false := by
          intro st r hp
          unfold process_file at hp
          cases hs : st i with
          | missing => rw [hs] at hp; cases hp
          | invalid => rw [hs] at hp; cases hp
          | valid fields =>
              rw [hs] at hp
              cases hp
              have hg : rowGet (flatten_json_record i fields) "json_nct_id"
                  = PValue.str i := by
                unfold flatten_json_record rowGet
                rw [if_pos rfl]
              simp [hg]
        cases hp1 : process_file store i with
        | none =>
            cases hp2 : process_file store2 i with
            | none => exact ih
            | some r2 =>
                rw [List.filter_cons, hkey store2 r2 hp2]
                simpa using ih
        | some r1 =>
            cases hp2 : process_file store2 i with
            | none =>
                rw [List.filter_cons, hkey store r1 hp1]
                simpa using ih
            | some r2 =>
                rw [List.filter_cons, List.filter_cons, hkey store r1 hp1,
                  hkey store2 r2 hp2]
                simpa using ih
      · have hsame : process_file store2 i = process_file store i := by
          unfold process_file
          rw [hagree i hib]
        rw [hsame]
        cases hp : process_file store i with
        | none => exact ih
        | some r =>
            simp only [List.filter_cons]
            rw [ih]

/-- Three-record tabular frame for the resilience scenario. -/
def resilienceCsvLf : DF :=
  DF.mk [("NCT Number", PType.utf8), ("Study Title", PType.utf8)]
    [[("NCT Number", PValue.str "NCT00000001"), ("Study Title", PValue.str "A")],
     [("NCT Number", PValue.str "NCT00000002"), ("Study Title", PValue.str "B")],
     [("NCT Number", PValue.str "NCT00000003"), ("Study Title", PValue.str "C")]]

/-- Document store where exactly one requested identifier fails
validation. -/
def resilienceStore : String → DocOutcome := fun i =>
  if i = "NCT00000004" then DocOutcome.invalid
  else DocOutcome.valid [("json_official_title", PValue.str "T")]

/-- C8 counterexample: in a run with exactly one failed document the
failure is excluded from the prepared frame (two of the three requested
documents survive), but no error count is surfaced in any run statistics:
harmonize_data raises the AttributeError of get_strategy_config before
its statistics dict is ever built, so the run surfaces no statistics at
all. -/
theorem per_record_error_count_counterexample :
    harmonize_data (fun _ _ => none) (fun _ => 0) resilienceCsvLf resilienceStore
        {"NCT00000001", "NCT00000002", "NCT00000003"}
        ["NCT00000001", "NCT00000002", "NCT00000004"] .json_priority 0
      = .error "AttributeError: CSV_PRIORITY" ∧
    (["NCT00000001", "NCT00000002", "NCT00000004"].filter
        (fun i => !(resilienceStore i).isValid)).length = 1 ∧
    (prepare_json_df resilienceStore
        ["NCT00000001", "NCT00000002", "NCT00000004"]).rows.length = 2 :=
  ⟨rfl, rfl, rfl⟩

/-- C8 amended: a missing or invalid document is excluded from the
prepared document frame (no output row carries its identifier) and the
exclusion itself never raises; sibling identifiers are unaffected (any
change confined to one identifier leaves the rows of all other
identifiers unchanged); the number of successfully loaded records equals
the number of requested identifiers whose document loads and validates;
but no error count reaches any run statistics, because harmonize_data
raises the AttributeError of get_strategy_config before its statistics
dict is built. -/
theorem per_record_resilience (store store2 : String → DocOutcome)
    (ids : List String) (badId : String)
    (hbad : (store badId).isValid = false)
    (hagree : ∀ i, i ≠ badId → store2 i = store i) :
    (∀ ro ∈ (prepare_json_df store ids).rows,
        rowGet ro "json_nct_id" ≠ .str badId) ∧
    (prepare_json_df store ids).rows.length
        = (ids.filter (fun i => (store i).isValid)).length ∧
    ((prepare_json_df store ids).rows.filter
        (fun ro => !(decide (rowGet ro "json_nct_id" = .str badId)))
      = (prepare_json_df store2 ids).rows.filter
        (fun ro => !(decide (rowGet ro "json_nct_id" = .str badId)))) ∧
    (∀ pd h csvLf csvIds s now,
      harmonize_data pd h csvLf store csvIds ids s now
        = .error "AttributeError: CSV_PRIORITY") := by
  refine ⟨?_, ?_, ?_, ?_⟩
  · rw [prepare_json_df_rows]
    exact load_excludes_failures store ids badId hbad
  · rw [prepare_json_df_rows]
    exact load_length_by_validity store ids
  · rw [prepare_json_df_rows, prepare_json_df_rows]
    exact load_siblings_unaffected store store2 ids badId hagree
  · intro pd h csvLf csvIds s now
    rfl

/-- A repaired document store agreeing with resilienceStore away from the
failing identifier. -/
def resilienceStoreFixed : String → DocOutcome :=
  fun _ => DocOutcome.valid [("json_official_title", PValue.str "T")]

/-- Witness for C8: the resilience properties instantiated on the concrete
one-failure store, its repaired variant and a three-identifier request. -/
theorem per_record_resilience_witness :
    (resilienceStore "NCT00000004").isValid = false ∧
    (∀ i, i ≠ "NCT00000004" → resilienceStoreFixed i = resilienceStore i) ∧
    ((∀ ro ∈ (prepare_json_df resilienceStore
          ["NCT00000001", "NCT00000002", "NCT00000004"]).rows,
        rowGet ro "json_nct_id" ≠ .str "NCT00000004") ∧
      (prepare_json_df resilienceStore
          ["NCT00000001", "NCT00000002", "NCT00000004"]).rows.length
        = (["NCT00000001", "NCT00000002", "NCT00000004"].filter
            (fun i => (resilienceStore i).isValid)).length ∧
      ((prepare_json_df resilienceStore
            ["NCT00000001", "NCT00000002", "NCT00000004"]).rows.filter
          (fun ro => !(decide (rowGet ro "json_nct_id" = .str "NCT00000004")))
        = (prepare_json_df resilienceStoreFixed
            ["NCT00000001", "NCT00000002", "NCT00000004"]).rows.filter
          (fun ro => !(decide (rowGet ro "json_nct_id" = .str "NCT00000004")))) ∧
      (∀ pd h csvLf csvIds s now,
        harmonize_data pd h csvLf resilienceStore csvIds
            ["NCT00000001", "NCT00000002", "NCT00000004"] s now
          = .error "AttributeError: CSV_PRIORITY")) := by
  have hagree : ∀ i, i ≠ "NCT00000004" → resilienceStoreFixed i = resilienceStore i := by
    intro i hi
    simp [resilienceStoreFixed, resilienceStore, hi]
  exact ⟨by decide, hagree,
    per_record_resilience resilienceStore resilienceStoreFixed
      ["NCT00000001", "NCT00000002", "NCT00000004"] "NCT00000004" (by decide) hagree⟩

/-- C9 counterexample: running the full harmonization twice on identical
inputs with identical strategy configuration, at wall-clock instants 0 and
1, yields the AttributeError of get_strategy_config both times — the
pipeline produces no canonical output at all, so no byte-identical
canonical output or shard assignment exists across the two runs. -/
theorem pipeline_idempotence_counterexample :
    harmonize_data (fun _ _ => none) (fun _ => 0) ironCsvLf (fun _ => DocOutcome.missing)
        {"NCT00000001"} [] .json_priority 0
      = .error "AttributeError: CSV_PRIORITY" ∧
    harmonize_data (fun _ _ => none) (fun _ => 0) ironCsvLf (fun _ => DocOutcome.missing)
        {"NCT00000001"} [] .json_priority 1
      = .error "AttributeError: CSV_PRIORITY" :=
  ⟨rfl, rfl⟩

/-- C9 amended: two runs of the full harmonization on identical inputs
with identical strategy and shard-count configuration are trivially
identical, whatever the two wall-clock instants: both raise the same
AttributeError from get_strategy_config, and no canonical output and no
shard assignments are ever produced. -/
theorem pipeline_runs_identical_error (pd : String → String → Option Nat)
    (h : PValue → Nat) (csvLf : DF) (store : String → DocOutcome)
    (csvIds : Finset String) (jsonIds : List String) (s : DeduplicationStrategy)
    (now1 now2 : Nat) :
    harmonize_data pd h csvLf store csvIds jsonIds s now1
      = harmonize_data pd h csvLf store csvIds jsonIds s now2 ∧
    harmonize_data pd h csvLf store csvIds jsonIds s now1
      = .error "AttributeError: CSV_PRIORITY" :=
  ⟨rfl, rfl⟩

end ClinTrAI
